import Mathlib

/-!
Verification of `src/daily_report.py` (daily commit-report pipeline).

The script is embedded shallowly:

* `Value` models the JSON-like Python values produced by `json.loads`.
* `Content` models MCP content items (`TextContent`, `EmbeddedResource`,
  anything else via `__dict__`).
* `unwrap_content` embeds the helper of the same name; `json.loads` is an
  external library call, so it is passed in as a parameter
  `parse : String → Option Value` (`none` models `json.JSONDecodeError`).
* `post_mcp` embeds the generic tool-call helper.  The `async with` blocks
  of `sse_client` / `ClientSession` guarantee teardown on every exit path;
  this is encoded by the session-event trace unconditionally ending in
  `sessionClose`, whatever the outcome of the request.
* `resolveMainWindow` / `resolveBranchWindow` embed the base/head selection
  of steps 2 and 4 of `main`; `runMain` embeds the whole of `main` over an
  `Oracle` recording what each remote call returns, producing the ordered
  trace of tool calls together with the observable outcome.
* `validateEnv` embeds the module-level environment validation
  (lines 30–47).  Python's `os.getenv(k) or ''` collapses an unset
  variable and the empty string, so a setting is a plain `String` and
  "missing" means `= ""`.
-/

/-- JSON-like values, as produced by `json.loads` in the script. -/
inductive Value where
  | str : String → Value
  | num : Int → Value
  | bool : Bool → Value
  | null : Value
  | list : List Value → Value
  | obj : List (String × Value) → Value
deriving Repr

/-- MCP content items as classified by `unwrap_content`:
`TextContent` (a raw string), `EmbeddedResource` (its `body`),
and the fallback branch `item.__dict__` (a field mapping). -/
inductive Content where
  | text : String → Content
  | embedded : Value → Content
  | other : List (String × Value) → Content
deriving Repr

/-- Embeds `unwrap_content` (daily_report.py lines 52–67).
`parse` stands for `json.loads`; `parse s = none` models
`json.JSONDecodeError`, in which case the raw text is kept. -/
def unwrap_content (parse : String → Option Value) : List Content → List Value
  | [] => []
  | Content.text s :: rest =>
      (match parse s with
       | some v => v
       | none => Value.str s) :: unwrap_content parse rest
  | Content.embedded b :: rest => b :: unwrap_content parse rest
  | Content.other fs :: rest => Value.obj fs :: unwrap_content parse rest

/-- The result-shaping done by `post_mcp` after `unwrap_content`
(lines 75–78): a singleton whose only item is itself a list is
unwrapped to that inner list; anything else is returned unchanged. -/
def postMcpNormalize (parse : String → Option Value) (raw : List Content) :
    List Value :=
  let content_items := unwrap_content parse raw
  match content_items with
  | [Value.list l] => l
  | _ => content_items

/-- Observable transport-level events of one `post_mcp` call:
entering `sse_client`/`ClientSession`, the `session.initialize()`
handshake, the single `session.call_tool`, and session teardown. -/
inductive SessionEvent where
  | sessionOpen
  | handshake
  | callTool : String → SessionEvent
  | sessionClose
deriving Repr, DecidableEq

/-- What the remote end does with the single request of a `post_mcp`
call: it answers with raw content, reports a failure, or the transport
faults.  The two error cases both surface as a raised exception. -/
inductive ToolOutcome where
  | ok : List Content → ToolOutcome
  | remoteError : String → ToolOutcome
  | transportError : String → ToolOutcome
deriving Repr

/-- Embeds `post_mcp` (lines 69–78): one session per call.  The trace is
the same on every path because the `async with` blocks close the session
whether `call_tool` returns or raises; the returned value is the
normalized content on success and the propagated error otherwise. -/
def post_mcp (parse : String → Option Value) (tool : String)
    (behavior : ToolOutcome) : List SessionEvent × Except String (List Value) :=
  let trace := [SessionEvent.sessionOpen, SessionEvent.handshake,
                SessionEvent.callTool tool, SessionEvent.sessionClose]
  match behavior with
  | ToolOutcome.ok raw => (trace, Except.ok (postMcpNormalize parse raw))
  | ToolOutcome.remoteError m => (trace, Except.error m)
  | ToolOutcome.transportError m => (trace, Except.error m)

/-- A commit record as consumed by `main`: the script reads only the
`sha` field of each commit dict; `message` carries the commit message. -/
structure Commit where
  sha : String
  message : String
deriving Repr, DecidableEq

/-- Embeds step 2 of `main` (lines 102–118): with more than one commit,
`base = commits[-1].sha`, `head = commits[0].sha` (newest first); with
exactly one, `base = prev[0].sha if prev else commits[0].sha` and
`head = commits[0].sha`.  The `[]` case never occurs at the call site
(guarded by the early return at line 97). -/
def resolveMainWindow : List Commit → List Commit → String × String
  | [], _ => ("", "")
  | [c], prev =>
      (match prev with
       | [] => c.sha
       | p :: _ => p.sha, c.sha)
  | c :: d :: rest, _ => (((d :: rest).getLast (List.cons_ne_nil d rest)).sha, c.sha)

/-- Embeds the branch-window selection of step 4 (lines 142–144):
`none` when no branch commits were returned, otherwise the same
last/first (oldest/newest) selection, with no fallback of any kind. -/
def resolveBranchWindow : List Commit → Option (String × String)
  | [] => none
  | c :: rest => some (((c :: rest).getLast (List.cons_ne_nil c rest)).sha, c.sha)

/-- The ordered tool calls `main` can make, one constructor per call
site: the three `list_commits` calls (today on main, yesterday on main,
today on the configured branch), `compare_commits`, the LLM completion,
the Slack post and the Notion page creation. -/
inductive Call where
  | listCommitsToday
  | listCommitsYesterday
  | listCommitsBranch : String → Call
  | compareCommits : String → String → Call
  | llmSummarize : String → Call
  | slackPostMessage : String → String → Call
  | notionCreatePage : String → String → Call
deriving Repr, DecidableEq

/-- What a completed run of `main` observably produced: either the early
"no commits today" return (line 99) or a report with the two diff texts
and the LLM summary that were published. -/
inductive Outcome where
  | skipped
  | report : String → String → String → Outcome
deriving Repr, DecidableEq

/-- The responses of the external services during one run: the three
commit listings, the one or two compare results (each a list of diff
text items), and the LLM's summary. -/
structure Oracle where
  todayCommits : List Commit
  prevCommits : List Commit
  branchCommits : List Commit
  compareMain : List String
  compareBranch : List String
  summary : String
deriving Repr, DecidableEq

/-- Embeds the prompt assembly of step 5 (lines 155–160). -/
def buildPrompt (today overallDiff branch branchDiff : String) : String :=
  "【日付: " ++ today ++ "】\n" ++
  "以下の変更内容をもとに、3行の日本語日報を作成してください。\n\n" ++
  "■ 全体差分（mainブランチ）:\n" ++ overallDiff ++ "\n\n" ++
  "■ `" ++ branch ++ "` ブランチでの実装差分:\n" ++ branchDiff

/-- Embeds `main` (lines 83–188) over an `Oracle` of remote responses:
returns the ordered trace of tool calls together with the outcome.
Step numbers follow the comments in the script. -/
def runMain (branch channelId dbId today : String) (o : Oracle) :
    List Call × Outcome :=
  -- 1. fetch today's commits; empty → print and return (lines 97–99)
  if o.todayCommits.isEmpty then
    ([Call.listCommitsToday], Outcome.skipped)
  else
    -- 2. base/head for the overall diff; the previous-day fetch happens
    -- only in the single-commit branch (lines 105–116)
    let prevCalls : List Call :=
      if o.todayCommits.length > 1 then [] else [Call.listCommitsYesterday]
    let w := resolveMainWindow o.todayCommits o.prevCommits
    -- 3. overall diff via compare_commits (lines 121–129)
    let overallDiff := o.compareMain.headD ""
    -- 4. branch commits and diff (lines 131–152)
    let branchStep : List Call × String :=
      match resolveBranchWindow o.branchCommits with
      | none => ([], "")
      | some (b, h) => ([Call.compareCommits b h], o.compareBranch.headD "")
    -- 5–7. summarize, post to Slack, create the Notion page
    let prompt := buildPrompt today overallDiff branch branchStep.2
    let body := "【" ++ today ++ "】 3行日報\n" ++ o.summary
    ([Call.listCommitsToday] ++ prevCalls ++
       [Call.compareCommits w.1 w.2, Call.listCommitsBranch branch] ++
       branchStep.1 ++
       [Call.llmSummarize prompt,
        Call.slackPostMessage channelId body,
        Call.notionCreatePage dbId o.summary],
     Outcome.report overallDiff branchStep.2 o.summary)

/-- The environment variables the script reads at module level.  After
`os.getenv(k) or ''` an unset variable and the empty string coincide, so
each setting is a `String` and "missing" means the empty string. -/
structure Env where
  openaiApiKey : String
  githubMcpUrl : String
  slackMcpUrl : String
  notionMcpUrl : String
  ghOwner : String
  ghRepo : String
  slackChannelId : String
  notionDbId : String
deriving Repr, DecidableEq

/-- The `required` dict of line 36, in insertion order (the OpenAI key is
not in it: it is checked separately, lines 30–32). -/
def requiredSettings (e : Env) : List (String × String) :=
  [("GITHUB_MCP_URL", e.githubMcpUrl),
   ("SLACK_MCP_URL", e.slackMcpUrl),
   ("NOTION_MCP_URL", e.notionMcpUrl),
   ("GH_OWNER", e.ghOwner),
   ("GH_REPO", e.ghRepo),
   ("SLACK_CHANNEL_ID", e.slackChannelId),
   ("NOTION_DB_ID", e.notionDbId)]

/-- Embeds the module-level validation (lines 30–47): first the OpenAI
key alone aborts with its own message; only then are the seven remaining
settings checked together, aborting with the full comma-joined list. -/
def validateEnv (e : Env) : Except String Unit :=
  if e.openaiApiKey = "" then
    Except.error "✖️ Missing required env var: OPENAI_API_KEY"
  else
    let missing := ((requiredSettings e).filter (fun kv => kv.2 = "")).map Prod.fst
    if missing.isEmpty then Except.ok ()
    else Except.error ("✖️ Missing required env vars: " ++ String.intercalate ", " missing)

/-- The whole program: validation runs at import time, before `main` and
hence before any network activity; a validation failure aborts with no
tool call made. -/
def runProgram (e : Env) (branch today : String) (o : Oracle) :
    List Call × Except String Outcome :=
  match validateEnv e with
  | Except.error m => ([], Except.error m)
  | Except.ok _ =>
      let r := runMain branch e.slackChannelId e.notionDbId today o
      (r.1, Except.ok r.2)

/-- Modelled from the spec: no first-line extraction of commit messages
exists in `src/daily_report.py` (the script reads only the `sha` field of
each commit); the spec's data model declares the first line of a commit
message semantically significant and its testable properties require a
first-line extraction, modelled here as everything before the first
newline. -/
def firstLine (message : String) : String :=
  String.mk (message.toList.takeWhile (fun c => c != '\n'))

/-- Predicate on trace entries: is this a `compare_commits` call? -/
def isCompareCall : Call → Bool
  | Call.compareCommits _ _ => true
  | _ => false

/-- Predicate on session events: is this the `call_tool` request? -/
def isCallToolEvent : SessionEvent → Bool
  | SessionEvent.callTool _ => true
  | _ => false

/-- Length preservation of `unwrap_content`: every raw item yields
exactly one normalized item. -/
theorem unwrap_content_length (parse : String → Option Value)
    (raw : List Content) : (unwrap_content parse raw).length = raw.length := by
  induction raw with
  | nil => rfl
  | cons c rest ih => cases c <;> simp [unwrap_content, ih]

/-- C5: if the `list_commits` call for today returns zero commits, the
run ends successfully after that single call: the trace is exactly
`[listCommitsToday]` — no compare, no summarization, no Slack post, no
Notion page. -/
theorem C5_zero_commits_skips (branch channelId dbId today : String)
    (o : Oracle) (h : o.todayCommits = []) :
    runMain branch channelId dbId today o =
      ([Call.listCommitsToday], Outcome.skipped) := by
  simp [runMain, h]

/-- Witness for C5 at a concrete oracle with no commits today. -/
theorem C5_zero_commits_skips_witness :
    (Oracle.mk [] [] [] [] [] "s").todayCommits = [] ∧
    runMain "feature-branch" "C" "D" "2026-10-12" (Oracle.mk [] [] [] [] [] "s") =
      ([Call.listCommitsToday], Outcome.skipped) :=
  ⟨rfl, C5_zero_commits_skips "feature-branch" "C" "D" "2026-10-12" _ rfl⟩

/-- C10: first-line extraction on commit messages, modelled from the
spec (absent from the script): on "fix: bug\nmore detail" it yields
"fix: bug". -/
theorem C10_first_line_extraction :
    firstLine "fix: bug\nmore detail" = "fix: bug" := by decide

/-- C2: if the normalized content is exactly one item and that item is
itself a list, `post_mcp` returns that inner list; in every other case
it returns the normalized items unchanged. -/
theorem C2_flatten_one_level (parse : String → Option Value)
    (raw : List Content) :
    (∀ l : List Value, unwrap_content parse raw = [Value.list l] →
        postMcpNormalize parse raw = l) ∧
    ((∀ l : List Value, unwrap_content parse raw ≠ [Value.list l]) →
        postMcpNormalize parse raw = unwrap_content parse raw) := by
  constructor
  · intro l h
    simp [postMcpNormalize, h]
  · intro h
    rcases hu : unwrap_content parse raw with _ | ⟨v, rest⟩
    · simp [postMcpNormalize, hu]
    · rcases rest with _ | ⟨w, rest2⟩
      · cases v with
        | list l => exact absurd hu (h l)
        | str s => simp [postMcpNormalize, hu]
        | num n => simp [postMcpNormalize, hu]
        | bool b => simp [postMcpNormalize, hu]
        | null => simp [postMcpNormalize, hu]
        | obj fs => simp [postMcpNormalize, hu]
      · simp [postMcpNormalize, hu]

/-- Witness for C2: a single content item parsing to a list is
unwrapped to that inner list. -/
theorem C2_flatten_one_level_witness :
    unwrap_content (fun _ => none) [Content.embedded (Value.list [Value.num 1])] =
      [Value.list [Value.num 1]] ∧
    postMcpNormalize (fun _ => none) [Content.embedded (Value.list [Value.num 1])] =
      [Value.num 1] :=
  ⟨rfl, (C2_flatten_one_level (fun _ => none) _).1 [Value.num 1] rfl⟩

/-- C9: a text content item whose text fails JSON parsing is not an
error: `unwrap_content` is total and keeps the raw text as a plain
string at the same position of the normalized output. -/
theorem C9_parse_failure_keeps_raw_text (parse : String → Option Value)
    (raw : List Content) (i : Nat) (s : String) (h : i < raw.length)
    (htext : raw.get ⟨i, h⟩ = Content.text s) (hfail : parse s = none) :
    ∃ h2 : i < (unwrap_content parse raw).length,
      (unwrap_content parse raw).get ⟨i, h2⟩ = Value.str s := by
  induction raw generalizing i with
  | nil => exact absurd h (Nat.not_lt_zero i)
  | cons c rest ih =>
    cases i with
    | zero =>
      simp only [List.get] at htext
      subst htext
      refine ⟨by simp [unwrap_content], ?_⟩
      simp [unwrap_content, hfail]
    | succ n =>
      have hn : n < rest.length := Nat.lt_of_succ_lt_succ h
      have htext2 : rest.get ⟨n, hn⟩ = Content.text s := htext
      obtain ⟨h2, hres⟩ := ih n hn htext2
      cases c with
      | text t =>
        exact ⟨Nat.succ_lt_succ h2, by simpa [unwrap_content] using hres⟩
      | embedded b =>
        exact ⟨Nat.succ_lt_succ h2, by simpa [unwrap_content] using hres⟩
      | other fs =>
        exact ⟨Nat.succ_lt_succ h2, by simpa [unwrap_content] using hres⟩

/-- Witness for C9 at a concrete unparseable text item. -/
theorem C9_parse_failure_keeps_raw_text_witness :
    ∃ h2 : 0 < (unwrap_content (fun _ => none) [Content.text "oops"]).length,
      (unwrap_content (fun _ => none) [Content.text "oops"]).get ⟨0, h2⟩ =
        Value.str "oops" :=
  C9_parse_failure_keeps_raw_text (fun _ => none) [Content.text "oops"] 0 "oops"
    (by simp) rfl rfl

/-- C8: every `post_mcp` call opens exactly one session, performs
exactly one request on it, and the trace ends with the single session
teardown on every path — success, remote error, or transport error —
while the returned value is the normalized content on success and the
propagated error otherwise; the trace is the same for every behavior,
so no session outlives or is shared between calls. -/
theorem C8_session_per_call (parse : String → Option Value) (tool : String)
    (b : ToolOutcome) :
    (post_mcp parse tool b).1.count SessionEvent.sessionOpen = 1 ∧
    ((post_mcp parse tool b).1.filter isCallToolEvent).length = 1 ∧
    (post_mcp parse tool b).1.count SessionEvent.sessionClose = 1 ∧
    (post_mcp parse tool b).1.getLast? = some SessionEvent.sessionClose ∧
    (∀ raw, b = ToolOutcome.ok raw →
      (post_mcp parse tool b).2 = Except.ok (postMcpNormalize parse raw)) ∧
    (∀ m, b = ToolOutcome.remoteError m →
      (post_mcp parse tool b).2 = Except.error m) ∧
    (∀ m, b = ToolOutcome.transportError m →
      (post_mcp parse tool b).2 = Except.error m) := by
  cases b <;>
    refine ⟨?_, ?_, ?_, ?_, ?_, ?_, ?_⟩ <;>
    simp [post_mcp, isCallToolEvent, List.count_cons, postMcpNormalize]

/-- Witness for C8 at a concrete failing call: the error propagates. -/
theorem C8_session_per_call_witness :
    (post_mcp (fun _ => none) "list_commits" (ToolOutcome.remoteError "boom")).2 =
      Except.error "boom" :=
  (C8_session_per_call (fun _ => none) "list_commits"
      (ToolOutcome.remoteError "boom")).2.2.2.2.2.1 "boom" rfl

/-- C1: with exactly one commit today, the previous day is fetched; a
non-empty previous day gives base = its first (newest) sha and head =
the single commit's sha; an empty previous day gives the degenerate
window base = head = the single commit's sha; the resolved window is
what gets compared. -/
theorem C1_single_commit_fallback (branch channelId dbId today : String)
    (o : Oracle) (c : Commit) (h : o.todayCommits = [c]) :
    Call.listCommitsYesterday ∈ (runMain branch channelId dbId today o).1 ∧
    Call.compareCommits (resolveMainWindow o.todayCommits o.prevCommits).1
        (resolveMainWindow o.todayCommits o.prevCommits).2 ∈
      (runMain branch channelId dbId today o).1 ∧
    (∀ p ps, o.prevCommits = p :: ps →
        resolveMainWindow o.todayCommits o.prevCommits = (p.sha, c.sha)) ∧
    (o.prevCommits = [] →
        resolveMainWindow o.todayCommits o.prevCommits = (c.sha, c.sha)) := by
  refine ⟨?_, ?_, ?_, ?_⟩
  · rcases hb : resolveBranchWindow o.branchCommits with _ | ⟨bb, bh⟩ <;>
      simp [runMain, h, hb]
  · rcases hb : resolveBranchWindow o.branchCommits with _ | ⟨bb, bh⟩ <;>
      simp [runMain, h, hb]
  · intro p ps hp
    simp [h, hp, resolveMainWindow]
  · intro hp
    simp [h, hp, resolveMainWindow]

/-- Witness for C1: one commit today with and without previous-day
commits. -/
theorem C1_single_commit_fallback_witness :
    resolveMainWindow [Commit.mk "t1" "m"] [Commit.mk "p1" "n"] = ("p1", "t1") ∧
    resolveMainWindow [Commit.mk "t1" "m"] [] = ("t1", "t1") :=
  ⟨(C1_single_commit_fallback "fb" "C" "D" "d"
      (Oracle.mk [Commit.mk "t1" "m"] [Commit.mk "p1" "n"] [] [] [] "s")
      (Commit.mk "t1" "m") rfl).2.2.1 (Commit.mk "p1" "n") [] rfl,
   (C1_single_commit_fallback "fb" "C" "D" "d"
      (Oracle.mk [Commit.mk "t1" "m"] [] [] [] [] "s")
      (Commit.mk "t1" "m") rfl).2.2.2 rfl⟩

/-- C3: for more than one commit (main window, any previous-day data)
and for any non-empty branch commit list, base is the sha of the last
element and head the sha of the first; on [sha "b", sha "a"] this gives
base "a", head "b". -/
theorem C3_newest_first_selection (prev : List Commit) :
    (∀ (c d : Commit) (rest : List Commit),
        resolveMainWindow (c :: d :: rest) prev =
          (((c :: d :: rest).getLast (List.cons_ne_nil c (d :: rest))).sha, c.sha)) ∧
    (∀ (c : Commit) (rest : List Commit),
        resolveBranchWindow (c :: rest) =
          some (((c :: rest).getLast (List.cons_ne_nil c rest)).sha, c.sha)) ∧
    resolveMainWindow [Commit.mk "b" "", Commit.mk "a" ""] prev = ("a", "b") := by
  refine ⟨?_, ?_, ?_⟩
  · intro c d rest
    simp [resolveMainWindow, List.getLast_cons]
  · intro c rest
    rfl
  · rfl

/-- C4 counterexample: one commit today ("a") and an empty previous day
resolve to the degenerate window base = head = "a", the branch window is
absent, and yet compare_commits is still invoked on that degenerate
window — refuting "compare is invoked only for a window satisfying the
non-degenerate-or-branch-present condition". -/
theorem C4_degenerate_window_still_compared :
    resolveMainWindow [Commit.mk "a" "m"] [] = ("a", "a") ∧
    resolveBranchWindow ([] : List Commit) = none ∧
    Call.compareCommits "a" "a" ∈
      (runMain "feature-branch" "C" "D" "2026-10-12"
        (Oracle.mk [Commit.mk "a" "m"] [] [] [] [] "s")).1 := by
  refine ⟨rfl, rfl, ?_⟩
  simp [runMain, resolveMainWindow, resolveBranchWindow]

/-- C4 amended: whenever today's commits are non-empty the main window
is always compared (degenerate base = head included); the branch window
is compared exactly when branch commits exist (so one compare call
without branch commits, two with); each diff text is the first item of
the corresponding compare result, or "" if that result is empty. -/
theorem C4_compare_and_diff_text (branch channelId dbId today : String)
    (o : Oracle) (h : o.todayCommits ≠ []) :
    Call.compareCommits (resolveMainWindow o.todayCommits o.prevCommits).1
        (resolveMainWindow o.todayCommits o.prevCommits).2 ∈
      (runMain branch channelId dbId today o).1 ∧
    (((runMain branch channelId dbId today o).1.filter isCompareCall).length =
      if o.branchCommits = [] then 1 else 2) ∧
    (runMain branch channelId dbId today o).2 =
      Outcome.report (o.compareMain.headD "")
        (if o.branchCommits = [] then "" else o.compareBranch.headD "")
        o.summary := by
  obtain ⟨c, rest, hc⟩ : ∃ c rest, o.todayCommits = c :: rest := by
    cases htc : o.todayCommits with
    | nil => exact absurd htc h
    | cons c rest => exact ⟨c, rest, rfl⟩
  rcases rest with _ | ⟨d, rest2⟩ <;>
    rcases hb : o.branchCommits with _ | ⟨bc, brest⟩ <;>
      simp [runMain, hc, hb, resolveBranchWindow, isCompareCall]

/-- Witness for C4 amended at a concrete two-commit day with one branch
commit. -/
theorem C4_compare_and_diff_text_witness :
    Call.compareCommits "a" "b" ∈
      (runMain "fb" "C" "D" "d"
        (Oracle.mk [Commit.mk "b" "", Commit.mk "a" ""] [] [Commit.mk "x" ""]
          ["Dmain"] ["Dbr"] "s")).1 ∧
    (runMain "fb" "C" "D" "d"
        (Oracle.mk [Commit.mk "b" "", Commit.mk "a" ""] [] [Commit.mk "x" ""]
          ["Dmain"] ["Dbr"] "s")).2 = Outcome.report "Dmain" "Dbr" "s" := by
  have h := C4_compare_and_diff_text "fb" "C" "D" "d"
    (Oracle.mk [Commit.mk "b" "", Commit.mk "a" ""] [] [Commit.mk "x" ""]
      ["Dmain"] ["Dbr"] "s") (by decide)
  exact ⟨h.1, by simpa using h.2.2⟩

/-- C6: once today's commits are non-empty, the branch listing is always
fetched; zero branch commits give branch diff "" and no branch compare
call (one compare in the whole trace); non-empty branch commits give the
same last/first (oldest/newest) selection and a compare call on it; the
previous-day fetch never depends on the branch data — it happens exactly
when today has a single commit. -/
theorem C6_branch_window (branch channelId dbId today : String)
    (o : Oracle) (h : o.todayCommits ≠ []) :
    Call.listCommitsBranch branch ∈ (runMain branch channelId dbId today o).1 ∧
    (Call.listCommitsYesterday ∈ (runMain branch channelId dbId today o).1 ↔
      o.todayCommits.length = 1) ∧
    (o.branchCommits = [] →
      resolveBranchWindow o.branchCommits = none ∧
      ((runMain branch channelId dbId today o).1.filter isCompareCall).length = 1 ∧
      ∃ od, (runMain branch channelId dbId today o).2 =
        Outcome.report od "" o.summary) ∧
    (∀ bc brest, o.branchCommits = bc :: brest →
      resolveBranchWindow o.branchCommits =
        some (((bc :: brest).getLast (List.cons_ne_nil bc brest)).sha, bc.sha) ∧
      Call.compareCommits ((bc :: brest).getLast (List.cons_ne_nil bc brest)).sha
          bc.sha ∈ (runMain branch channelId dbId today o).1) := by
  obtain ⟨c, rest, hc⟩ : ∃ c rest, o.todayCommits = c :: rest := by
    cases htc : o.todayCommits with
    | nil => exact absurd htc h
    | cons c rest => exact ⟨c, rest, rfl⟩
  refine ⟨?_, ?_, ?_, ?_⟩
  · rcases rest with _ | ⟨d, rest2⟩ <;>
      rcases hb : o.branchCommits with _ | ⟨bc, brest⟩ <;>
        simp [runMain, hc, hb, resolveBranchWindow]
  · rcases rest with _ | ⟨d, rest2⟩ <;>
      rcases hb : o.branchCommits with _ | ⟨bc, brest⟩ <;>
        simp [runMain, hc, hb, resolveBranchWindow]
  · intro hb
    rcases rest with _ | ⟨d, rest2⟩ <;>
      simp [runMain, hc, hb, resolveBranchWindow, isCompareCall]
  · intro bc brest hb
    rcases rest with _ | ⟨d, rest2⟩ <;>
      simp [runMain, hc, hb, resolveBranchWindow]

/-- Witness for C6 at a concrete day with two commits and no branch
commits. -/
theorem C6_branch_window_witness :
    Call.listCommitsBranch "fb" ∈
      (runMain "fb" "C" "D" "d"
        (Oracle.mk [Commit.mk "b" "", Commit.mk "a" ""] [] [] ["Dmain"] [] "s")).1 ∧
    ((runMain "fb" "C" "D" "d"
        (Oracle.mk [Commit.mk "b" "", Commit.mk "a" ""] [] [] ["Dmain"] [] "s")).1.filter
      isCompareCall).length = 1 := by
  have h := C6_branch_window "fb" "C" "D" "d"
    (Oracle.mk [Commit.mk "b" "", Commit.mk "a" ""] [] [] ["Dmain"] [] "s") (by decide)
  exact ⟨h.1, (h.2.2.1 rfl).2.1⟩

/-- C7 counterexample: with both OPENAI_API_KEY and GH_OWNER missing the
abort message names only OPENAI_API_KEY — "GH_OWNER" does not occur in
it — so the listing does not enumerate every missing required setting. -/
theorem C7_openai_masks_other_missing :
    validateEnv (Env.mk "" "x" "x" "x" "" "x" "x" "x") =
      Except.error "✖️ Missing required env var: OPENAI_API_KEY" ∧
    (Env.mk "" "x" "x" "x" "" "x" "x" "x").ghOwner = "" ∧
    ¬ ("GH_OWNER".toList <:+:
        ("✖️ Missing required env var: OPENAI_API_KEY").toList) := by
  refine ⟨rfl, rfl, by decide⟩

/-- C7 amended: validation aborts before any tool call, but in two
stages: a missing OPENAI_API_KEY aborts with a message naming only it;
with OPENAI_API_KEY present, any missing settings among the remaining
seven abort with a message enumerating exactly those, in the order of
the required-settings table, and validation succeeds when none are
missing. -/
theorem C7_validation_behavior (e : Env) (branch today : String) (o : Oracle) :
    (e.openaiApiKey = "" →
        validateEnv e = Except.error "✖️ Missing required env var: OPENAI_API_KEY") ∧
    (e.openaiApiKey ≠ "" →
        validateEnv e =
          (if (((requiredSettings e).filter (fun kv => kv.2 = "")).map Prod.fst).isEmpty then
            Except.ok ()
          else
            Except.error ("✖️ Missing required env vars: " ++ String.intercalate ", "
              (((requiredSettings e).filter (fun kv => kv.2 = "")).map Prod.fst)))) ∧
    (∀ m, validateEnv e = Except.error m → (runProgram e branch today o).1 = []) := by
  refine ⟨?_, ?_, ?_⟩
  · intro h
    simp [validateEnv, h]
  · intro h
    simp [validateEnv, h]
  · intro m hm
    simp [runProgram, hm]

/-- Witness for C7 amended: OPENAI_API_KEY present, two of the seven
settings missing, both enumerated; and an error aborts with no calls. -/
theorem C7_validation_behavior_witness :
    validateEnv (Env.mk "k" "" "x" "x" "" "x" "x" "x") =
      Except.error "✖️ Missing required env vars: GITHUB_MCP_URL, GH_OWNER" ∧
    (runProgram (Env.mk "" "x" "x" "x" "" "x" "x" "x") "fb" "d"
      (Oracle.mk [] [] [] [] [] "s")).1 = [] := by
  constructor
  · have h := (C7_validation_behavior (Env.mk "k" "" "x" "x" "" "x" "x" "x") "fb" "d"
      (Oracle.mk [] [] [] [] [] "s")).2.1 (by decide)
    rw [h]
    rfl
  · exact (C7_validation_behavior (Env.mk "" "x" "x" "x" "" "x" "x" "x") "fb" "d"
      (Oracle.mk [] [] [] [] [] "s")).2.2 _
      ((C7_validation_behavior (Env.mk "" "x" "x" "x" "" "x" "x" "x") "fb" "d"
        (Oracle.mk [] [] [] [] [] "s")).1 rfl)
